import Mathlib

/-!
Shallow embedding of the source-to-sink streaming core: the circuit
breaker (`src/circuit.js`), the batch collector (`src/batch.js`), the
timed-batch decorator (`src/timedBatch.js`) and the generic polling
source (`src/pollingSource.js`).  Times are rationals in milliseconds,
timeouts and intervals are rationals in seconds, matching the
JavaScript number arithmetic `(now - openedAt) / 1000 >= timeout` and
`interval * 1000` exactly.  Effectful collaborators (sink, fetch,
collector) are modelled by logging every call into the state and by
letting the environment choose each call's outcome.
-/

/-- Circuit state: `closed` allows operations, `open` blocks them and
carries the millisecond timestamp at which the circuit opened
(`open(timestamp, clk, timeout)` in `src/circuit.js`). -/
inductive CircuitState where
  | closed : CircuitState
  | opened (openedAt : ℚ) : CircuitState
  deriving DecidableEq

/-- The mutable state of one circuit breaker from `src/circuit.js`:
configured failure `threshold`, recovery `timeout` in seconds, the
consecutive-failure counter and the current state. -/
structure Circuit where
  threshold : ℕ
  timeout : ℚ
  failures : ℕ
  state : CircuitState
  deriving DecidableEq

/-- `circuit(threshold, timeout, clk)` constructor body: starts with
`failures = 0` and the closed state. -/
def circuit (threshold : ℕ) (timeout : ℚ) : Circuit :=
  { threshold := threshold, timeout := timeout, failures := 0, state := .closed }

/-- Constructor validation of `src/circuit.js`: `threshold < 1` and
`timeout < 0` are rejected (`timeout = 0` is accepted). -/
def circuitValid (threshold timeout : ℚ) : Bool :=
  decide (1 ≤ threshold) && decide (0 ≤ timeout)

/-- `allowing()`: in `closed` return true unchanged; in `opened`,
return true after transitioning to `closed` and resetting `failures`
when `(now - openedAt) / 1000 >= timeout`, otherwise return false.
The clock reading `now` is passed explicitly. -/
def Circuit.allowing (c : Circuit) (now : ℚ) : Bool × Circuit :=
  match c.state with
  | .closed => (true, c)
  | .opened openedAt =>
      if (now - openedAt) / 1000 ≥ c.timeout then
        (true, { c with state := .closed, failures := 0 })
      else
        (false, c)

/-- `succeed()`: resets the failure counter and forces `closed`. -/
def Circuit.succeed (c : Circuit) : Circuit :=
  { c with failures := 0, state := .closed }

/-- `fail()`: increments the failure counter and, when it reaches the
threshold, opens the circuit at the current clock reading `now`. -/
def Circuit.fail (c : Circuit) (now : ℚ) : Circuit :=
  let f := c.failures + 1
  if c.threshold ≤ f then
    { c with failures := f, state := .opened now }
  else
    { c with failures := f }

/-- `threshold` consecutive `fail()` calls at the clock readings `ts`,
with no intervening `succeed()`. -/
def Circuit.fails (c : Circuit) (ts : List ℚ) : Circuit :=
  ts.foldl (fun s t => s.fail t) c

/-- One externally driven operation on a circuit breaker, tagged with
the clock reading at which it runs. -/
inductive COp where
  | fail (t : ℚ)
  | succeed
  | allow (t : ℚ)

/-- Runs a sequence of operations against a circuit breaker, keeping
the state `allowing()` leaves behind. -/
def Circuit.runOps (c : Circuit) : List COp → Circuit
  | [] => c
  | .fail t :: rest => (c.fail t).runOps rest
  | .succeed :: rest => c.succeed.runOps rest
  | .allow t :: rest => (c.allowing t).2.runOps rest

/-- The clock reading of a single operation is at most `T`. -/
def COp.timeLE (T : ℚ) : COp → Prop
  | .fail t => t ≤ T
  | .succeed => True
  | .allow t => t ≤ T

instance (T : ℚ) : DecidablePred (COp.timeLE T) := fun op =>
  match op with
  | .fail t => inferInstanceAs (Decidable (t ≤ T))
  | .succeed => inferInstanceAs (Decidable True)
  | .allow t => inferInstanceAs (Decidable (t ≤ T))

/-- All clock readings in an operation sequence are at most `T`. -/
def opsBefore (T : ℚ) (ops : List COp) : Prop :=
  ∀ op ∈ ops, op.timeLE T

instance (T : ℚ) (ops : List COp) : Decidable (opsBefore T ops) :=
  List.decidableBAll _ ops

/-- Every `opened` timestamp stored in the circuit is at most `T`. -/
def Circuit.openedBefore (c : Circuit) (T : ℚ) : Prop :=
  ∀ t, c.state = .opened t → t ≤ T

/-- The state of one batch collector from `src/batch.js`, together with
a log of its interactions: `records` is the pending buffer, `circuit`
the breaker it consults, `writes` the payload of every `sink.write`
call made so far (successful or not) and `attempts` the number of such
calls. -/
structure Batch (α : Type) where
  records : List α
  circuit : Circuit
  writes : List (List α)
  attempts : ℕ
  deriving DecidableEq

/-- `batch(sink, size, circuit)` constructor body: empty pending
buffer. -/
def batch (c : Circuit) : Batch α :=
  { records := [], circuit := c, writes := [], attempts := 0 }

/-- The `perform` closure of `src/batch.js`: no-op on an empty buffer,
no-op when the circuit denies admission, otherwise the buffer is handed
to `sink.write`; on success the buffer is cleared and `succeed()`
invoked, on a thrown failure `fail()` is invoked, the buffer is left as
it was and the exception is re-raised (the returned flag is `true` when
the call raised).  The sink's behaviour is supplied by the environment:
`sinkOk k` is the outcome of the `k`-th `write` call.  `now` is the
clock reading used by the circuit breaker during the call. -/
def Batch.perform (sinkOk : ℕ → Bool) (now : ℚ) (b : Batch α) : Batch α × Bool :=
  if b.records.length = 0 then (b, false)
  else
    let ac := b.circuit.allowing now
    if ac.1 then
      let b1 := { b with writes := b.writes ++ [b.records], attempts := b.attempts + 1 }
      if sinkOk b.attempts then
        ({ b1 with records := [], circuit := ac.2.succeed }, false)
      else
        ({ b1 with circuit := ac.2.fail now }, true)
    else
      ({ b with circuit := ac.2 }, false)

/-- `accept(record)`: append to the pending buffer and perform a flush
attempt when the buffer length is at or above `size`; the flag is
`true` when the triggered flush raised. -/
def Batch.accept (size : ℕ) (sinkOk : ℕ → Bool) (now : ℚ) (b : Batch α) (x : α) :
    Batch α × Bool :=
  let b1 := { b with records := b.records ++ [x] }
  if size ≤ b1.records.length then b1.perform sinkOk now else (b1, false)

/-- `flush()`: force a flush attempt regardless of buffer length. -/
def Batch.flush (sinkOk : ℕ → Bool) (now : ℚ) (b : Batch α) : Batch α × Bool :=
  b.perform sinkOk now

/-- `stop()`: discard all pending records without flushing. -/
def Batch.stop (b : Batch α) : Batch α :=
  { b with records := [] }

/-- A sequence of `accept` calls, all at clock reading `now`, ignoring
raised exceptions (the driver catches and continues). -/
def Batch.accepts (size : ℕ) (sinkOk : ℕ → Bool) (now : ℚ) (b : Batch α) (xs : List α) :
    Batch α :=
  xs.foldl (fun s x => (s.accept size sinkOk now x).1) b

/-- The state of one timed-batch decorator from `src/timedBatch.js`,
with a log of its delegations to the wrapped collector: `deadline` is
the firing time of the pending `setTimeout` flush timer when one is
scheduled, `flushes` counts calls to the origin's `flush()`, `accepted`
logs records delegated to the origin's `accept`, `stops` counts calls
to the origin's `stop()`.  `now` is the current clock time in
milliseconds. -/
structure TimedBatch (α : Type) where
  interval : ℚ
  now : ℚ
  deadline : Option ℚ
  flushes : ℕ
  accepted : List α
  stops : ℕ
  deriving DecidableEq

/-- `timedBatch(origin, interval)` constructor body at clock time
`t0`: no timer scheduled. -/
def timedBatch (interval t0 : ℚ) : TimedBatch α :=
  { interval := interval, now := t0, deadline := none,
    flushes := 0, accepted := [], stops := 0 }

/-- `accept(record)`: delegate to the origin, then `schedule()` — arm a
timer at `now + interval * 1000` only when none is scheduled; a pending
timer is left untouched. -/
def TimedBatch.accept (s : TimedBatch α) (x : α) : TimedBatch α :=
  let s1 := { s with accepted := s.accepted ++ [x] }
  match s.deadline with
  | some _ => s1
  | none => { s1 with deadline := some (s.now + s.interval * 1000) }

/-- Manual `flush()`: `cancel()` the pending timer, then delegate to
the origin's `flush()`. -/
def TimedBatch.flush (s : TimedBatch α) : TimedBatch α :=
  { s with deadline := none, flushes := s.flushes + 1 }

/-- `stop()`: `cancel()` the pending timer, then delegate to the
origin's `stop()`. -/
def TimedBatch.stop (s : TimedBatch α) : TimedBatch α :=
  { s with deadline := none, stops := s.stops + 1 }

/-- Let wall-clock time advance by `d` milliseconds: the one-shot
`setTimeout` timer fires if its deadline falls within the elapsed
window, clearing its scheduled state first and then calling the
origin's `flush()`. -/
def TimedBatch.advance (s : TimedBatch α) (d : ℚ) : TimedBatch α :=
  let t := s.now + d
  match s.deadline with
  | some f =>
      if f ≤ t then { s with now := t, deadline := none, flushes := s.flushes + 1 }
      else { s with now := t }
  | none => { s with now := t }

/-- The state of one polling source from `src/pollingSource.js`, with a
log of its interactions: `since` is the lower bound of the next time
window, `nextFire` the firing time of the recurring `setInterval` timer
when polling, `fetchCalls` the `(since, until)` argument pair of every
fetch invocation, `accepted` the records forwarded to the collector, in
order.  `now` is the current clock time in milliseconds. -/
structure PollingSource (α : Type) where
  interval : ℚ
  now : ℚ
  since : ℚ
  nextFire : Option ℚ
  fetchCalls : List (ℚ × ℚ)
  accepted : List α
  deriving DecidableEq

/-- `pollingSource(fetch, interval, collector, clk)` constructor body
at clock time `t0`: idle, `since = clk.millis()`. -/
def pollingSource (interval t0 : ℚ) : PollingSource α :=
  { interval := interval, now := t0, since := t0, nextFire := none,
    fetchCalls := [], accepted := [] }

/-- The `poll` closure: capture `until` from the clock (`t`), invoke
the fetch capability with `(since, until)`; when the fetch resolves,
advance `since = until` and forward every returned entry, in order, to
the collector's `accept`; when the fetch rejects, the rest of the tick
body does not run, so `since` stays unchanged and nothing is
forwarded.  The fetch behaviour is supplied by the environment as a
function of the window. -/
def PollingSource.poll (fetch : ℚ → ℚ → Except Unit (List α)) (t : ℚ)
    (s : PollingSource α) : PollingSource α :=
  let call := (s.since, t)
  match fetch s.since t with
  | .error _ => { s with fetchCalls := s.fetchCalls ++ [call] }
  | .ok entries =>
      { s with since := t, fetchCalls := s.fetchCalls ++ [call],
               accepted := s.accepted ++ entries }

/-- `start()`: no-op when already polling; otherwise reset
`since = clk.millis()` and arm the recurring timer, whose first fire is
one full interval away. -/
def PollingSource.start (s : PollingSource α) : PollingSource α :=
  match s.nextFire with
  | some _ => s
  | none => { s with since := s.now, nextFire := some (s.now + s.interval * 1000) }

/-- `stop()`: cancel the timer (no-op when already idle). -/
def PollingSource.stop (s : PollingSource α) : PollingSource α :=
  { s with nextFire := none }

/-- How many fires of a recurring timer with next fire at `nf` and
period `per` fall at or before time `t`. -/
def fireCount (nf per t : ℚ) : ℕ :=
  if nf ≤ t then (⌊(t - nf) / per⌋).toNat + 1 else 0

/-- Let wall-clock time advance by `d` milliseconds: while polling, the
recurring timer fires at `nf`, `nf + per`, ... for every fire time in
the elapsed window, running one `poll` tick at each fire time. -/
def PollingSource.advance (fetch : ℚ → ℚ → Except Unit (List α)) (d : ℚ)
    (s : PollingSource α) : PollingSource α :=
  let t := s.now + d
  match s.nextFire with
  | none => { s with now := t }
  | some nf =>
      let per := s.interval * 1000
      let k := fireCount nf per t
      let s2 := ((List.range k).map (fun i => nf + (i : ℚ) * per)).foldl
        (fun st tm => st.poll fetch tm) s
      { s2 with now := t, nextFire := some (nf + (k : ℚ) * per) }

/-- The run invariant of a batch collector whose circuit stays closed
and whose sink always succeeds, after the records `xs` have been
accepted: every `sink.write` call carried exactly `size` records, the
writes happen exactly once per `size` records, and the written batches
followed by the pending buffer reconstruct `xs`. -/
def BatchInv (size : ℕ) (xs : List α) (b : Batch α) : Prop :=
  b.circuit.state = .closed ∧
  b.writes.flatten ++ b.records = xs ∧
  b.records.length = xs.length % size ∧
  b.writes.length = xs.length / size ∧
  b.writes.map List.length = List.replicate (xs.length / size) size ∧
  b.attempts = b.writes.length

/-- A sink whose every write succeeds. -/
def alwaysOk : ℕ → Bool := fun _ => true

/-- A sink whose first write throws and whose later writes succeed. -/
def failFirst : ℕ → Bool := fun k => decide (1 ≤ k)

/-- A fetch capability that rejects exactly on the tick whose `until`
is 10 and otherwise resolves with no entries. -/
def failAt10 : ℚ → ℚ → Except Unit (List ℕ) := fun a u =>
  if u = 10 then .error () else .ok [a.num.toNat]

/-- A fetch capability that always resolves with no entries. -/
def noFetch : ℚ → ℚ → Except Unit (List ℕ) := fun _ _ => .ok []

theorem allowing_closed (c : Circuit) (now : ℚ) (hc : c.state = .closed) :
    c.allowing now = (true, c) := by
  obtain ⟨th, tm, f, st⟩ := c
  simp only at hc
  subst hc
  rfl

theorem allowing_opened_expired (c : Circuit) (t now : ℚ) (hc : c.state = .opened t)
    (h : (now - t) / 1000 ≥ c.timeout) :
    c.allowing now = (true, { c with state := .closed, failures := 0 }) := by
  obtain ⟨th, tm, f, st⟩ := c
  simp only at hc h
  subst hc
  simp [Circuit.allowing, h]

theorem allowing_opened_not_expired (c : Circuit) (t now : ℚ) (hc : c.state = .opened t)
    (h : (now - t) / 1000 < c.timeout) :
    c.allowing now = (false, c) := by
  obtain ⟨th, tm, f, st⟩ := c
  simp only at hc h
  subst hc
  simp [Circuit.allowing, not_le.mpr h]

theorem fails_fields (ts : List ℚ) (c : Circuit)
    (hc : c.state = .closed) (h : c.failures + ts.length < c.threshold) :
    (c.fails ts).state = .closed ∧ (c.fails ts).failures = c.failures + ts.length ∧
    (c.fails ts).threshold = c.threshold ∧ (c.fails ts).timeout = c.timeout := by
  induction ts generalizing c with
  | nil => simp [Circuit.fails, hc]
  | cons t ts ih =>
      have hnot : ¬ c.threshold ≤ c.failures + 1 := by
        simp only [List.length_cons] at h
        omega
      have hstep : c.fail t = { c with failures := c.failures + 1 } := by
        simp [Circuit.fail, hnot]
      have hrec := ih { c with failures := c.failures + 1 }
        (by simpa using hc)
        (by simp only [List.length_cons] at h; simpa using by omega)
      simp only [Circuit.fails, List.foldl_cons] at hrec ⊢
      rw [hstep]
      obtain ⟨h1, h2, h3, h4⟩ := hrec
      refine ⟨h1, ?_, by simpa using h3, by simpa using h4⟩
      rw [h2]
      simp only [List.length_cons]
      omega

theorem fail_timeout (c : Circuit) (t : ℚ) : (c.fail t).timeout = c.timeout := by
  simp only [Circuit.fail]
  split <;> rfl

theorem allowing_timeout (c : Circuit) (t : ℚ) : ((c.allowing t).2).timeout = c.timeout := by
  obtain ⟨th, tm, f, st⟩ := c
  cases st with
  | closed => rfl
  | opened a =>
      simp only [Circuit.allowing]
      split <;> rfl

theorem runOps_timeout (ops : List COp) (c : Circuit) : (c.runOps ops).timeout = c.timeout := by
  induction ops generalizing c with
  | nil => rfl
  | cons op rest ih =>
      cases op with
      | fail t =>
          have := ih (c.fail t)
          simpa [Circuit.runOps, fail_timeout] using this
      | succeed =>
          have := ih c.succeed
          simpa [Circuit.runOps, Circuit.succeed] using this
      | allow t =>
          have := ih (c.allowing t).2
          simpa [Circuit.runOps, allowing_timeout] using this

theorem fail_openedBefore (c : Circuit) (t T : ℚ) (hc : c.openedBefore T) (ht : t ≤ T) :
    (c.fail t).openedBefore T := by
  intro u hu
  simp only [Circuit.fail] at hu
  split at hu
  · simp only at hu
    rw [CircuitState.opened.injEq] at hu
    exact hu ▸ ht
  · exact hc u hu

theorem succeed_openedBefore (c : Circuit) (T : ℚ) : c.succeed.openedBefore T := by
  intro u hu
  simp [Circuit.succeed] at hu

theorem allowing_openedBefore (c : Circuit) (t T : ℚ) (hc : c.openedBefore T) :
    ((c.allowing t).2).openedBefore T := by
  intro u hu
  obtain ⟨th, tm, f, st⟩ := c
  cases st with
  | closed => exact hc u hu
  | opened a =>
      simp only [Circuit.allowing] at hu
      split at hu
      · simp at hu
      · exact hc u hu

theorem runOps_openedBefore (ops : List COp) (c : Circuit) (T : ℚ)
    (hc : c.openedBefore T) (hops : opsBefore T ops) :
    (c.runOps ops).openedBefore T := by
  induction ops generalizing c with
  | nil => exact hc
  | cons op rest ih =>
      have hop : op.timeLE T := hops op (List.mem_cons_self _ _)
      have hrest : opsBefore T rest := fun o ho => hops o (List.mem_cons_of_mem _ ho)
      cases op with
      | fail t => exact ih (c.fail t) (fail_openedBefore c t T hc hop) hrest
      | succeed => exact ih c.succeed (succeed_openedBefore c T) hrest
      | allow t => exact ih (c.allowing t).2 (allowing_openedBefore c t T hc) hrest

theorem allowing_zero_timeout (c : Circuit) (now : ℚ) (h0 : c.timeout = 0)
    (hb : c.openedBefore now) :
    (c.allowing now).1 = true ∧ (c.allowing now).2.state = .closed ∧
    ((c.allowing now).2.failures = 0 ∨ (c.allowing now).2 = c) := by
  obtain ⟨th, tm, f, st⟩ := c
  simp only at h0
  cases st with
  | closed => exact ⟨rfl, rfl, Or.inr rfl⟩
  | opened a =>
      have ha : a ≤ now := hb a rfl
      have hge : (now - a) / 1000 ≥ tm := by
        rw [h0]
        apply div_nonneg (by linarith) (by norm_num)
      simp [Circuit.allowing, hge]

/-- C4: for every circuit breaker with positive integer threshold and
(positive-elapsed-bound) timeout, after exactly `threshold` consecutive
`fail()` calls with no intervening `succeed()` the circuit is open at
the time of the last failure and `allowing()` returns false while
`(now - openedAt)/1000 < timeout`; once `(now - openedAt)/1000 ≥ timeout`
by the clock, `allowing()` returns true again, transitions the state to
closed, and resets the failure counter to zero. -/
theorem c4_circuit_opens_and_heals (m : ℕ) (q : ℚ) (ts : List ℚ) (tl now1 now2 : ℚ)
    (hm : 1 ≤ m) (hts : ts.length + 1 = m)
    (h1 : (now1 - tl) / 1000 < q) (h2 : (now2 - tl) / 1000 ≥ q) :
    (((circuit m q).fails (ts ++ [tl])).state = .opened tl) ∧
    (((circuit m q).fails (ts ++ [tl])).failures = m) ∧
    ((((circuit m q).fails (ts ++ [tl])).allowing now1).1 = false) ∧
    ((((circuit m q).fails (ts ++ [tl])).allowing now2).1 = true) ∧
    ((((circuit m q).fails (ts ++ [tl])).allowing now2).2.state = .closed) ∧
    ((((circuit m q).fails (ts ++ [tl])).allowing now2).2.failures = 0) := by
  obtain ⟨hs, hf, hth, htm⟩ := fails_fields ts (circuit m q) rfl (by simp [circuit]; omega)
  have hsplit : (circuit m q).fails (ts ++ [tl]) = ((circuit m q).fails ts).fail tl := by
    simp [Circuit.fails, List.foldl_append]
  set c1 := (circuit m q).fails ts with hc1
  have hle : c1.threshold ≤ c1.failures + 1 := by
    rw [hth, hf]
    simp [circuit]
    omega
  have hfail : c1.fail tl = { c1 with failures := c1.failures + 1, state := .opened tl } := by
    simp [Circuit.fail, hle]
  have hstate : (c1.fail tl).state = .opened tl := by rw [hfail]
  have hfailures : (c1.fail tl).failures = m := by
    rw [hfail]
    simp only []
    rw [hf]
    simp [circuit]
    omega
  have htm2 : (c1.fail tl).timeout = q := by
    rw [fail_timeout, htm]
    rfl
  have hA1 := allowing_opened_not_expired (c1.fail tl) tl now1 hstate (by rw [htm2]; exact h1)
  have hA2 := allowing_opened_expired (c1.fail tl) tl now2 hstate (by rw [htm2]; exact h2)
  rw [hsplit]
  refine ⟨hstate, hfailures, ?_, ?_, ?_, ?_⟩
  · rw [hA1]
  · rw [hA2]
  · rw [hA2]
  · rw [hA2]

/-- Witness for C4 at threshold 2, timeout 60 s, failures at clock
readings 0 and 5 ms, checks at 10 ms (still blocked) and 60005 ms
(healed). -/
theorem c4_witness :
    ((1 : ℕ) ≤ 2) ∧ ([(0 : ℚ)].length + 1 = 2) ∧
    (((10 : ℚ) - 5) / 1000 < 60) ∧ (((60005 : ℚ) - 5) / 1000 ≥ 60) ∧
    ((((circuit 2 60).fails ([0] ++ [5])).state = .opened 5) ∧
     (((circuit 2 60).fails ([0] ++ [5])).failures = 2) ∧
     ((((circuit 2 60).fails ([0] ++ [5])).allowing 10).1 = false) ∧
     ((((circuit 2 60).fails ([0] ++ [5])).allowing 60005).1 = true) ∧
     ((((circuit 2 60).fails ([0] ++ [5])).allowing 60005).2.state = .closed) ∧
     ((((circuit 2 60).fails ([0] ++ [5])).allowing 60005).2.failures = 0)) :=
  ⟨by decide, by decide, by norm_num, by norm_num,
   c4_circuit_opens_and_heals 2 60 [0] 5 10 60005 (by decide) (by decide)
     (by norm_num) (by norm_num)⟩

/-- C6 counterexample: with threshold 1 and timeout 60 s, a `fail()` at
0 ms opens the circuit, and with no time elapsed `allowing()` would
return false (timeout not expired); yet after `succeed()` the state is
closed and `allowing()` returns true at the same instant — so
`succeed()` is a second path from open to closed, refuting the claim
that the check inside `allowing()` is the only one. -/
theorem c6_counterexample :
    (((circuit 1 60).fail 0).state = CircuitState.opened 0) ∧
    ((((circuit 1 60).fail 0).allowing 0).1 = false) ∧
    ((((circuit 1 60).fail 0).succeed).state = CircuitState.closed) ∧
    (((((circuit 1 60).fail 0).succeed).allowing 0).1 = true) := by
  refine ⟨?_, ?_, ?_, ?_⟩ <;>
    norm_num [circuit, Circuit.fail, Circuit.succeed, Circuit.allowing]

/-- C6 amended: from the open state, the expiry check inside
`allowing()` is the only path back to closed among `allowing()` and
`fail()` — before the timeout expires `allowing()` returns false and
leaves the breaker unchanged, and `fail()` never closes an open
circuit — but `succeed()` also transitions open to closed,
unconditionally. -/
theorem c6_open_to_closed_paths (c : Circuit) (t now : ℚ)
    (hopen : c.state = .opened t) (hne : (now - t) / 1000 < c.timeout) :
    (c.succeed.state = CircuitState.closed) ∧
    ((c.allowing now).1 = false) ∧
    ((c.allowing now).2 = c) ∧
    ((c.fail now).state = CircuitState.opened t ∨
     (c.fail now).state = CircuitState.opened now) := by
  have hA := allowing_opened_not_expired c t now hopen hne
  refine ⟨rfl, by rw [hA], by rw [hA], ?_⟩
  simp only [Circuit.fail]
  split
  · exact Or.inr rfl
  · exact Or.inl hopen

/-- Witness for C6 amended at a breaker opened at 0 ms, checked at
5 ms with timeout 60 s. -/
theorem c6_witness :
    (((circuit 1 60).fail 0).state = .opened 0) ∧
    ((((5 : ℚ) - 0) / 1000) < ((circuit 1 60).fail 0).timeout) ∧
    (((((circuit 1 60).fail 0).succeed).state = CircuitState.closed) ∧
     ((((circuit 1 60).fail 0).allowing 5).1 = false) ∧
     ((((circuit 1 60).fail 0).allowing 5).2 = (circuit 1 60).fail 0) ∧
     ((((circuit 1 60).fail 0).fail 5).state = CircuitState.opened 0 ∨
      (((circuit 1 60).fail 0).fail 5).state = CircuitState.opened 5)) :=
  ⟨by norm_num [circuit, Circuit.fail],
   by norm_num [circuit, Circuit.fail],
   c6_open_to_closed_paths ((circuit 1 60).fail 0) 0 5
     (by norm_num [circuit, Circuit.fail])
     (by norm_num [circuit, Circuit.fail])⟩

/-- C9: a circuit breaker may be constructed with `timeout = 0` (the
constructor validation rejects only negative timeouts), and for such a
breaker `allowing()` returns true in every reachable state under a
monotone clock: after any operation sequence whose clock readings are
at most `now`, `allowing(now)` grants admission and leaves the state
closed, either leaving the breaker untouched (it was already closed)
or transitioning straight back to closed with the failure counter
reset to zero. -/
theorem c9_zero_timeout_never_blocks (th : ℕ) (tq q now : ℚ) (ops : List COp)
    (htq : 1 ≤ tq) (hq : q < 0) (hops : opsBefore now ops) :
    (circuitValid tq 0 = true) ∧
    (circuitValid tq q = false) ∧
    ((((circuit th 0).runOps ops).allowing now).1 = true) ∧
    ((((circuit th 0).runOps ops).allowing now).2.state = .closed) ∧
    ((((circuit th 0).runOps ops).allowing now).2.failures = 0 ∨
      (((circuit th 0).runOps ops).allowing now).2 = (circuit th 0).runOps ops) := by
  have hvalid : circuitValid tq 0 = true := by
    simp [circuitValid, htq]
  have hinvalid : circuitValid tq q = false := by
    simp [circuitValid, not_le.mpr hq]
  have hto : ((circuit th 0).runOps ops).timeout = 0 := runOps_timeout ops (circuit th 0)
  have hob : ((circuit th 0).runOps ops).openedBefore now :=
    runOps_openedBefore ops (circuit th 0) now
      (fun t ht => by simp [circuit] at ht) hops
  have hz := allowing_zero_timeout ((circuit th 0).runOps ops) now hto hob
  exact ⟨hvalid, hinvalid, hz.1, hz.2.1, hz.2.2⟩

/-- Witness for C9: threshold 1, two failures at 0 and 3 ms and an
admission check at 4 ms, queried at 5 ms. -/
theorem c9_witness :
    ((1 : ℚ) ≤ 1) ∧ ((-1 : ℚ) < 0) ∧
    (opsBefore 5 [COp.fail 0, COp.fail 3, COp.allow 4]) ∧
    ((circuitValid 1 0 = true) ∧
     (circuitValid 1 (-1) = false) ∧
     ((((circuit 1 0).runOps [COp.fail 0, COp.fail 3, COp.allow 4]).allowing 5).1 = true) ∧
     ((((circuit 1 0).runOps [COp.fail 0, COp.fail 3, COp.allow 4]).allowing 5).2.state = .closed) ∧
     ((((circuit 1 0).runOps [COp.fail 0, COp.fail 3, COp.allow 4]).allowing 5).2.failures = 0 ∨
       (((circuit 1 0).runOps [COp.fail 0, COp.fail 3, COp.allow 4]).allowing 5).2
         = (circuit 1 0).runOps [COp.fail 0, COp.fail 3, COp.allow 4])) :=
  ⟨by norm_num, by norm_num,
   by
     intro op hop
     fin_cases hop <;> norm_num [COp.timeLE],
   c9_zero_timeout_never_blocks 1 1 (-1) 5 [COp.fail 0, COp.fail 3, COp.allow 4]
     (by norm_num) (by norm_num)
     (by
       intro op hop
       fin_cases hop <;> norm_num [COp.timeLE])⟩

theorem accept_noflush (size : ℕ) (sinkOk : ℕ → Bool) (now : ℚ) (b : Batch α) (x : α)
    (htrig : b.records.length + 1 < size) :
    b.accept size sinkOk now x = ({ b with records := b.records ++ [x] }, false) := by
  unfold Batch.accept
  rw [if_neg (by simp only [List.length_append, List.length_cons, List.length_nil]; omega)]

theorem accept_flush (size : ℕ) (sinkOk : ℕ → Bool) (now : ℚ) (b : Batch α) (x : α)
    (hallow : (b.circuit.allowing now).1 = true) (hok : sinkOk b.attempts = true)
    (htrig : size ≤ b.records.length + 1) :
    b.accept size sinkOk now x =
      ({ b with
          records := [],
          circuit := (b.circuit.allowing now).2.succeed,
          writes := b.writes ++ [b.records ++ [x]],
          attempts := b.attempts + 1 }, false) := by
  unfold Batch.accept Batch.perform
  simp only [List.length_append, List.length_cons, List.length_nil]
  rw [if_pos (by omega)]
  rw [if_neg (by omega)]
  simp only [hallow, hok, if_true]

theorem accept_raise (size : ℕ) (sinkOk : ℕ → Bool) (now : ℚ) (b : Batch α) (x : α)
    (hallow : (b.circuit.allowing now).1 = true) (hok : sinkOk b.attempts = false)
    (htrig : size ≤ b.records.length + 1) :
    b.accept size sinkOk now x =
      ({ b with
          records := b.records ++ [x],
          circuit := (b.circuit.allowing now).2.fail now,
          writes := b.writes ++ [b.records ++ [x]],
          attempts := b.attempts + 1 }, true) := by
  unfold Batch.accept Batch.perform
  simp only [List.length_append, List.length_cons, List.length_nil]
  rw [if_pos (by omega)]
  rw [if_neg (by omega)]
  simp only [hallow, hok, if_true, Bool.false_eq_true, if_false]

theorem flush_ok (sinkOk : ℕ → Bool) (now : ℚ) (b : Batch α)
    (hallow : (b.circuit.allowing now).1 = true) (hok : sinkOk b.attempts = true)
    (hne : b.records.length ≠ 0) :
    b.flush sinkOk now =
      ({ b with
          records := [],
          circuit := (b.circuit.allowing now).2.succeed,
          writes := b.writes ++ [b.records],
          attempts := b.attempts + 1 }, false) := by
  unfold Batch.flush Batch.perform
  rw [if_neg hne]
  simp only [hallow, hok, if_true]

theorem flush_raise (sinkOk : ℕ → Bool) (now : ℚ) (b : Batch α)
    (hallow : (b.circuit.allowing now).1 = true) (hok : sinkOk b.attempts = false)
    (hne : b.records.length ≠ 0) :
    b.flush sinkOk now =
      ({ b with
          circuit := (b.circuit.allowing now).2.fail now,
          writes := b.writes ++ [b.records],
          attempts := b.attempts + 1 }, true) := by
  unfold Batch.flush Batch.perform
  rw [if_neg hne]
  simp only [hallow, hok, if_true, Bool.false_eq_true, if_false]

theorem batchInv_accept (size : ℕ) (sinkOk : ℕ → Bool) (now : ℚ) (xs : List α)
    (b : Batch α) (x : α) (hsize : 1 ≤ size) (hok : ∀ k, sinkOk k = true)
    (hinv : BatchInv size xs b) :
    BatchInv size (xs ++ [x]) (b.accept size sinkOk now x).1 := by
  obtain ⟨hc, hjoin, hrlen, hwlen, hmap, hatt⟩ := hinv
  have hsize0 : 0 < size := by omega
  have hrlt : b.records.length < size := by
    rw [hrlen]
    exact Nat.mod_lt _ hsize0
  have hdm := Nat.div_add_mod xs.length size
  by_cases htrig : size ≤ b.records.length + 1
  · -- the buffer reaches the threshold exactly: flush of a full batch
    have hexact : b.records.length + 1 = size := by omega
    have hallow : (b.circuit.allowing now).1 = true := by
      rw [allowing_closed b.circuit now hc]
    have hstep := accept_flush size sinkOk now b x hallow (hok b.attempts) htrig
    rw [hstep]
    have hlink : size * (xs.length / size + 1) = size * (xs.length / size) + size := by
      ring
    have htot : xs.length + 1 = size * (xs.length / size + 1) := by
      have hlast : xs.length % size = size - 1 := by omega
      omega
    refine ⟨?_, ?_, ?_, ?_, ?_, ?_⟩
    · rw [allowing_closed b.circuit now hc]
      rfl
    · simp only [List.flatten_append, List.flatten_cons, List.flatten_nil,
        List.append_nil, List.append_assoc]
      rw [← List.append_assoc, hjoin]
    · simp only [List.length_nil, List.length_append, List.length_cons]
      rw [htot, Nat.mul_mod_right]
    · simp only [List.length_append, List.length_cons, List.length_nil]
      rw [htot, Nat.mul_div_cancel_left _ hsize0, hwlen]
    · simp only [List.map_append, List.map_cons, List.map_nil, List.length_append,
        List.length_cons, List.length_nil]
      rw [htot, Nat.mul_div_cancel_left _ hsize0, hmap, List.replicate_succ']
      simp [hexact]
    · simp only [List.length_append, List.length_cons, List.length_nil]
      omega
  · -- below the threshold: the record is only buffered
    have hstep := accept_noflush size sinkOk now b x (by omega)
    rw [hstep]
    have hlt : xs.length % size + 1 < size := by omega
    have h1 : xs.length + 1 = size * (xs.length / size) + (xs.length % size + 1) := by
      omega
    have hmod : (xs.length + 1) % size = xs.length % size + 1 := by
      rw [h1, Nat.mul_add_mod, Nat.mod_eq_of_lt hlt]
    have hdiv : (xs.length + 1) / size = xs.length / size := by
      rw [h1, Nat.mul_add_div hsize0, Nat.div_eq_of_lt hlt]
      omega
    refine ⟨hc, ?_, ?_, ?_, ?_, ?_⟩
    · rw [← List.append_assoc, hjoin]
    · simp only [List.length_append, List.length_cons, List.length_nil]
      rw [Nat.add_comm 0 1, hmod]
      omega
    · simp only [List.length_append, List.length_cons, List.length_nil]
      rw [Nat.add_comm 0 1, hdiv]
      exact hwlen
    · simp only [List.length_append, List.length_cons, List.length_nil]
      rw [Nat.add_comm 0 1, hdiv]
      exact hmap
    · exact hatt

theorem batchInv_accepts (size : ℕ) (sinkOk : ℕ → Bool) (now : ℚ) (ys : List α) :
    ∀ (pre : List α) (b : Batch α), 1 ≤ size → (∀ k, sinkOk k = true) →
    BatchInv size pre b →
    BatchInv size (pre ++ ys) (b.accepts size sinkOk now ys) := by
  induction ys with
  | nil =>
      intro pre b _ _ hinv
      simpa [Batch.accepts] using hinv
  | cons y ys ih =>
      intro pre b hsize hok hinv
      have hstep := batchInv_accept size sinkOk now pre b y hsize hok hinv
      have hrest := ih (pre ++ [y]) (b.accept size sinkOk now y).1 hsize hok hstep
      simpa [Batch.accepts, List.append_assoc] using hrest

theorem batchInv_init (size : ℕ) (c : Circuit) (hc : c.state = .closed) :
    BatchInv size [] (batch c : Batch α) := by
  refine ⟨hc, ?_, ?_, ?_, ?_, ?_⟩ <;> simp [batch]

/-- C5: with a closed breaker and an always-succeeding sink, for every
sequence of `accept` calls a flush occurs exactly once per `size`
records accepted — `xs.length / size` write calls, each carrying
exactly `size` records — the written batches followed by the pending
buffer reconstruct the input, and `xs.length % size` records remain
pending; in particular for `batch(sink, 2, circuit(5,60,clock))`,
`accept(A)` then `accept(B)` yields `sink.write([A,B])` exactly once
with an empty buffer (the witness instantiates this scenario). -/
theorem c5_flush_every_size_records {α : Type} (size : ℕ) (now : ℚ) (c : Circuit)
    (xs : List α) (hsize : 1 ≤ size) (hc : c.state = .closed) :
    (((batch c).accepts size alwaysOk now xs).writes.length = xs.length / size) ∧
    (((batch c).accepts size alwaysOk now xs).writes.map List.length
      = List.replicate (xs.length / size) size) ∧
    (((batch c).accepts size alwaysOk now xs).writes.flatten
      ++ ((batch c).accepts size alwaysOk now xs).records = xs) ∧
    (((batch c).accepts size alwaysOk now xs).records.length = xs.length % size) := by
  have h := batchInv_accepts size alwaysOk now xs [] (batch c) hsize (fun k => rfl)
    (batchInv_init size c hc)
  simp only [List.nil_append] at h
  exact ⟨h.2.2.2.1, h.2.2.2.2.1, h.2.1, h.2.2.1⟩

/-- Witness for C5: the spec's own scenario, size 2, `circuit(5,60)`,
two accepted records. -/
theorem c5_witness :
    ((1 : ℕ) ≤ 2) ∧ ((circuit 5 60).state = .closed) ∧
    ((((batch (circuit 5 60) : Batch ℕ).accepts 2 alwaysOk 0 [7, 8]).writes.length
        = [7, 8].length / 2) ∧
     (((batch (circuit 5 60) : Batch ℕ).accepts 2 alwaysOk 0 [7, 8]).writes.map List.length
        = List.replicate ([7, 8].length / 2) 2) ∧
     (((batch (circuit 5 60) : Batch ℕ).accepts 2 alwaysOk 0 [7, 8]).writes.flatten
        ++ ((batch (circuit 5 60) : Batch ℕ).accepts 2 alwaysOk 0 [7, 8]).records = [7, 8]) ∧
     (((batch (circuit 5 60) : Batch ℕ).accepts 2 alwaysOk 0 [7, 8]).records.length
        = [7, 8].length % 2)) :=
  ⟨by decide, rfl, c5_flush_every_size_records 2 0 (circuit 5 60) [7, 8] (by decide) rfl⟩

/-- C3 counterexample: with `size = 2` and a breaker opened by one
failure at 0 ms (timeout 60 s, admission denied), accepting three
records leaves the pending buffer at length 3 — strictly above the
configured size — refuting the claim that the buffer never exceeds
`size` after an `accept` completes even when the breaker denies
admission. -/
theorem c3_counterexample :
    (((batch ((circuit 1 60).fail 0) : Batch ℕ).accepts 2 alwaysOk 0
        [10, 11, 12]).records.length = 3) ∧
    ¬ (((batch ((circuit 1 60).fail 0) : Batch ℕ).accepts 2 alwaysOk 0
        [10, 11, 12]).records.length ≤ 2) := by
  have h : ((batch ((circuit 1 60).fail 0) : Batch ℕ).accepts 2 alwaysOk 0
      [10, 11, 12]).records.length = 3 := by
    norm_num [Batch.accepts, Batch.accept, Batch.perform, Circuit.allowing, Circuit.fail,
      circuit, batch, alwaysOk]
  exact ⟨h, by omega⟩

/-- C3 amended: the pending buffer length stays strictly below the
configured size immediately after every `accept` call completes,
provided every triggered flush is admitted by the circuit breaker and
every write succeeds; when admission is denied or a write fails the
buffer can grow beyond `size` (see the counterexample). -/
theorem c3_buffer_bounded_when_flushes_succeed {α : Type} (size : ℕ) (now : ℚ)
    (c : Circuit) (xs : List α) (hsize : 1 ≤ size) (hc : c.state = .closed) :
    ((batch c).accepts size alwaysOk now xs).records.length < size := by
  have h := batchInv_accepts size alwaysOk now xs [] (batch c) hsize (fun k => rfl)
    (batchInv_init size c hc)
  simp only [List.nil_append] at h
  rw [h.2.2.1]
  exact Nat.mod_lt _ (by omega)

/-- Witness for C3 amended: size 2, closed breaker, three accepts leave
one pending record. -/
theorem c3_witness :
    ((1 : ℕ) ≤ 2) ∧ ((circuit 5 60).state = .closed) ∧
    (((batch (circuit 5 60) : Batch ℕ).accepts 2 alwaysOk 0 [7, 8, 9]).records.length < 2) :=
  ⟨by decide, rfl,
   c3_buffer_bounded_when_flushes_succeed 2 0 (circuit 5 60) [7, 8, 9] (by decide) rfl⟩

/-- C10: `accept` triggers a flush attempt whenever the buffer length
after appending is at or above `size` (the trigger is `≥`, not `=`);
when the circuit then admits and the write succeeds, the entire
accumulated backlog — the whole pending buffer plus the new record,
possibly more than `size` records — is handed to `sink.write` in a
single call, leaving the buffer empty. -/
theorem c10_backlog_flushed_in_one_write {α : Type} (size : ℕ) (sinkOk : ℕ → Bool)
    (now : ℚ) (b : Batch α) (x : α)
    (hallow : (b.circuit.allowing now).1 = true) (hok : sinkOk b.attempts = true)
    (htrig : size ≤ b.records.length + 1) :
    ((b.accept size sinkOk now x).1.writes = b.writes ++ [b.records ++ [x]]) ∧
    ((b.accept size sinkOk now x).1.records = []) ∧
    ((b.accept size sinkOk now x).1.attempts = b.attempts + 1) := by
  rw [accept_flush size sinkOk now b x hallow hok htrig]
  exact ⟨rfl, rfl, rfl⟩

/-- Witness for C10: size 2, three records backlogged while the
breaker was open, the breaker expires at 60000 ms, and the fourth
accept hands all four records to `sink.write` in one call. -/
theorem c10_witness :
    (((((batch ((circuit 1 60).fail 0) : Batch ℕ).accepts 2 alwaysOk 0
          [1, 2, 3]).circuit.allowing 60000).1 = true) ∧
     (alwaysOk ((batch ((circuit 1 60).fail 0) : Batch ℕ).accepts 2 alwaysOk 0
          [1, 2, 3]).attempts = true) ∧
     (2 ≤ ((batch ((circuit 1 60).fail 0) : Batch ℕ).accepts 2 alwaysOk 0
          [1, 2, 3]).records.length + 1)) ∧
    (((((batch ((circuit 1 60).fail 0) : Batch ℕ).accepts 2 alwaysOk 0
          [1, 2, 3]).accept 2 alwaysOk 60000 4).1.writes
        = ((batch ((circuit 1 60).fail 0) : Batch ℕ).accepts 2 alwaysOk 0
            [1, 2, 3]).writes
          ++ [((batch ((circuit 1 60).fail 0) : Batch ℕ).accepts 2 alwaysOk 0
            [1, 2, 3]).records ++ [4]]) ∧
     ((((batch ((circuit 1 60).fail 0) : Batch ℕ).accepts 2 alwaysOk 0
          [1, 2, 3]).accept 2 alwaysOk 60000 4).1.records = []) ∧
     ((((batch ((circuit 1 60).fail 0) : Batch ℕ).accepts 2 alwaysOk 0
          [1, 2, 3]).accept 2 alwaysOk 60000 4).1.attempts
        = ((batch ((circuit 1 60).fail 0) : Batch ℕ).accepts 2 alwaysOk 0
            [1, 2, 3]).attempts + 1)) :=
  ⟨⟨by norm_num [Batch.accepts, Batch.accept, Batch.perform, Circuit.allowing,
      Circuit.fail, circuit, batch, alwaysOk],
    rfl,
    by norm_num [Batch.accepts, Batch.accept, Batch.perform, Circuit.allowing,
      Circuit.fail, circuit, batch, alwaysOk]⟩,
   c10_backlog_flushed_in_one_write 2 alwaysOk 60000
     ((batch ((circuit 1 60).fail 0) : Batch ℕ).accepts 2 alwaysOk 0 [1, 2, 3]) 4
     (by norm_num [Batch.accepts, Batch.accept, Batch.perform, Circuit.allowing,
        Circuit.fail, circuit, batch, alwaysOk])
     rfl
     (by norm_num [Batch.accepts, Batch.accept, Batch.perform, Circuit.allowing,
        Circuit.fail, circuit, batch, alwaysOk])⟩

/-- C1 counterexample: size 100, one record accepted, the first
flush's `sink.write` throws.  Afterwards the pending buffer still
holds the record — it was not cleared before the outcome of `write`
was known — and a repeated manual `flush()` with no new records
accepted re-sends the same batch: `sink.write` is called a second
time with the same payload and the buffer only then empties.  This
refutes the claim that the buffer is cleared pre-write and that the
repeated flush is a no-op re-sending nothing. -/
theorem c1_counterexample :
    ((((batch (circuit 5 60) : Batch ℕ).accept 100 failFirst 0 7).1.flush
        failFirst 0).2 = true) ∧
    ((((batch (circuit 5 60) : Batch ℕ).accept 100 failFirst 0 7).1.flush
        failFirst 0).1.records = [7]) ∧
    (((((batch (circuit 5 60) : Batch ℕ).accept 100 failFirst 0 7).1.flush
        failFirst 0).1.flush failFirst 0).1.writes = [[7], [7]]) ∧
    (((((batch (circuit 5 60) : Batch ℕ).accept 100 failFirst 0 7).1.flush
        failFirst 0).1.flush failFirst 0).1.attempts = 2) ∧
    (((((batch (circuit 5 60) : Batch ℕ).accept 100 failFirst 0 7).1.flush
        failFirst 0).1.flush failFirst 0).1.records = []) := by
  refine ⟨rfl, rfl, rfl, rfl, rfl⟩

/-- C1 amended: on a thrown failure from `write`, the circuit
breaker's `fail()` is invoked and the failure is re-raised to the
caller of `flush` — but the swapped-out batch IS retained in the
pending buffer (the buffer is cleared only after a successful write),
so a repeated manual `flush()` after the failure, with no new records
accepted in between, re-sends exactly the same batch and then clears
the buffer. -/
theorem c1_batch_retained_after_failed_write {α : Type} (sinkOk : ℕ → Bool)
    (now now2 : ℚ) (b : Batch α)
    (hne : b.records.length ≠ 0)
    (hallow : (b.circuit.allowing now).1 = true)
    (hfail : sinkOk b.attempts = false)
    (hok2 : sinkOk (b.attempts + 1) = true)
    (hallow2 : ((b.flush sinkOk now).1.circuit.allowing now2).1 = true) :
    ((b.flush sinkOk now).2 = true) ∧
    ((b.flush sinkOk now).1.records = b.records) ∧
    ((b.flush sinkOk now).1.circuit = ((b.circuit.allowing now).2).fail now) ∧
    ((b.flush sinkOk now).1.writes = b.writes ++ [b.records]) ∧
    (((b.flush sinkOk now).1.flush sinkOk now2).1.records = []) ∧
    (((b.flush sinkOk now).1.flush sinkOk now2).1.writes
      = (b.writes ++ [b.records]) ++ [b.records]) := by
  have h1 := flush_raise sinkOk now b hallow hfail hne
  rw [h1] at hallow2 ⊢
  have h2 := flush_ok sinkOk now2
    ({ b with
        circuit := (b.circuit.allowing now).2.fail now,
        writes := b.writes ++ [b.records],
        attempts := b.attempts + 1 })
    hallow2 hok2 hne
  rw [h2]
  exact ⟨rfl, rfl, rfl, rfl, rfl, rfl⟩

/-- Witness for C1 amended: size 100, one record, sink failing on the
first write and succeeding on the second, breaker `circuit(5,60)`. -/
theorem c1_witness :
    ((((batch (circuit 5 60) : Batch ℕ).accept 100 failFirst 0 7).1.records.length ≠ 0) ∧
     ((((batch (circuit 5 60) : Batch ℕ).accept 100 failFirst 0 7).1.circuit.allowing
        0).1 = true) ∧
     (failFirst ((batch (circuit 5 60) : Batch ℕ).accept 100 failFirst 0 7).1.attempts
        = false) ∧
     (failFirst (((batch (circuit 5 60) : Batch ℕ).accept 100 failFirst 0 7).1.attempts
        + 1) = true) ∧
     (((((batch (circuit 5 60) : Batch ℕ).accept 100 failFirst 0 7).1.flush failFirst
        0).1.circuit.allowing 0).1 = true)) ∧
    (((((batch (circuit 5 60) : Batch ℕ).accept 100 failFirst 0 7).1.flush
        failFirst 0).2 = true) ∧
     ((((batch (circuit 5 60) : Batch ℕ).accept 100 failFirst 0 7).1.flush
        failFirst 0).1.records
       = ((batch (circuit 5 60) : Batch ℕ).accept 100 failFirst 0 7).1.records) ∧
     ((((batch (circuit 5 60) : Batch ℕ).accept 100 failFirst 0 7).1.flush
        failFirst 0).1.circuit
       = ((((batch (circuit 5 60) : Batch ℕ).accept 100 failFirst 0
            7).1.circuit.allowing 0).2).fail 0) ∧
     ((((batch (circuit 5 60) : Batch ℕ).accept 100 failFirst 0 7).1.flush
        failFirst 0).1.writes
       = ((batch (circuit 5 60) : Batch ℕ).accept 100 failFirst 0 7).1.writes
         ++ [((batch (circuit 5 60) : Batch ℕ).accept 100 failFirst 0 7).1.records]) ∧
     (((((batch (circuit 5 60) : Batch ℕ).accept 100 failFirst 0 7).1.flush
        failFirst 0).1.flush failFirst 0).1.records = []) ∧
     (((((batch (circuit 5 60) : Batch ℕ).accept 100 failFirst 0 7).1.flush
        failFirst 0).1.flush failFirst 0).1.writes
       = (((batch (circuit 5 60) : Batch ℕ).accept 100 failFirst 0 7).1.writes
          ++ [((batch (circuit 5 60) : Batch ℕ).accept 100 failFirst 0 7).1.records])
         ++ [((batch (circuit 5 60) : Batch ℕ).accept 100 failFirst 0 7).1.records])) :=
  ⟨⟨by decide, rfl, rfl, by decide, rfl⟩,
   c1_batch_retained_after_failed_write failFirst 0 0
     ((batch (circuit 5 60) : Batch ℕ).accept 100 failFirst 0 7).1
     (by decide) rfl rfl (by decide) rfl⟩

/-- C2 counterexample: a polling source with `since = 0` whose fetch
rejects on the tick at 10 ms: afterwards `since` is still 0 — not
advanced to 10 as the claim requires — and the next tick at 20 ms
invokes fetch with the window `(0, 20)`, re-covering the failed
window, rather than the claim's already-advanced `(10, 20)`. -/
theorem c2_counterexample :
    (((pollingSource 1 0 : PollingSource ℕ).poll failAt10 10).since = 0) ∧
    (((pollingSource 1 0 : PollingSource ℕ).poll failAt10 10).since ≠ 10) ∧
    ((((pollingSource 1 0 : PollingSource ℕ).poll failAt10 10).poll failAt10
        20).fetchCalls = [(0, 10), (0, 20)]) ∧
    ((((pollingSource 1 0 : PollingSource ℕ).poll failAt10 10).poll failAt10
        20).accepted = [0]) := by
  refine ⟨?_, ?_, ?_, ?_⟩ <;>
    norm_num [pollingSource, PollingSource.poll, failAt10]

/-- C2 amended: each tick captures `until` from the clock and invokes
fetch with `(since, until)`; `since` is advanced to `until` only when
the fetch resolves — on a rejection `since` is left unchanged, nothing
is forwarded, and the failed window is retried by the next tick; on
success every element of the result is forwarded, in order, to the
collector's accept. -/
theorem c2_since_advances_only_on_success {α : Type}
    (fetch : ℚ → ℚ → Except Unit (List α)) (t : ℚ) (s : PollingSource α) :
    ((s.poll fetch t).fetchCalls = s.fetchCalls ++ [(s.since, t)]) ∧
    ((s.poll fetch t).since = match fetch s.since t with
      | .error _ => s.since
      | .ok _ => t) ∧
    ((s.poll fetch t).accepted = s.accepted ++ (match fetch s.since t with
      | .error _ => []
      | .ok es => es)) ∧
    ((s.poll fetch t).nextFire = s.nextFire) := by
  unfold PollingSource.poll
  cases h : fetch s.since t <;> simp [h]

/-- C7: for a timed-batch decorator with positive interval, a single
`accept` followed by waiting longer than the interval with no further
`accept` produces exactly one flush of the wrapped collector, and the
fired one-shot timer is gone, so further waiting adds no flush; a
pending timer is never rescheduled by a subsequent `accept` (only the
first `accept` after an idle period arms it, at `now + interval*1000`);
and a manual `flush()` cancels the pending timer, so no second flush
occurs when the interval later passes. -/
theorem c7_timed_batch_single_flush {α : Type} (i t0 d d2 f : ℚ) (x : α)
    (s : TimedBatch α) (hd : i * 1000 < d) (hf : s.deadline = some f) :
    ((((timedBatch i t0 : TimedBatch α).accept x).advance d).flushes = 1) ∧
    ((((timedBatch i t0 : TimedBatch α).accept x).advance d).deadline = none) ∧
    (((((timedBatch i t0 : TimedBatch α).accept x).advance d).advance d2).flushes = 1) ∧
    (((timedBatch i t0 : TimedBatch α).accept x).deadline = some (t0 + i * 1000)) ∧
    ((s.accept x).deadline = some f) ∧
    ((s.flush.advance d2).flushes = s.flushes + 1) ∧
    ((s.flush.advance d2).deadline = none) ∧
    (((((timedBatch i t0 : TimedBatch α).accept x).flush).advance d).flushes = 1) := by
  have hfire : t0 + i * 1000 ≤ t0 + d := by linarith
  refine ⟨?_, ?_, ?_, ?_, ?_, ?_, ?_, ?_⟩
  · simp [timedBatch, TimedBatch.accept, TimedBatch.advance, hfire]
  · simp [timedBatch, TimedBatch.accept, TimedBatch.advance, hfire]
  · simp [timedBatch, TimedBatch.accept, TimedBatch.advance, hfire]
  · simp [timedBatch, TimedBatch.accept]
  · simp [TimedBatch.accept, hf]
  · simp [TimedBatch.flush, TimedBatch.advance]
  · simp [TimedBatch.flush, TimedBatch.advance]
  · simp [timedBatch, TimedBatch.accept, TimedBatch.flush, TimedBatch.advance]

/-- Witness for C7: interval 1 s, accept at 0 ms, waiting 1500 ms;
the generic state is a decorator with a pending timer at 1000 ms. -/
theorem c7_witness :
    (((1 : ℚ) * 1000 < 1500) ∧
     (((timedBatch 1 0 : TimedBatch ℕ).accept 5).deadline = some 1000)) ∧
    (((((timedBatch 1 0 : TimedBatch ℕ).accept 5).advance 1500).flushes = 1) ∧
     ((((timedBatch 1 0 : TimedBatch ℕ).accept 5).advance 1500).deadline = none) ∧
     (((((timedBatch 1 0 : TimedBatch ℕ).accept 5).advance 1500).advance 300).flushes = 1) ∧
     (((timedBatch 1 0 : TimedBatch ℕ).accept 5).deadline = some (0 + 1 * 1000)) ∧
     ((((timedBatch 1 0 : TimedBatch ℕ).accept 5).accept 5).deadline = some 1000) ∧
     ((((timedBatch 1 0 : TimedBatch ℕ).accept 5).flush.advance 300).flushes
        = ((timedBatch 1 0 : TimedBatch ℕ).accept 5).flushes + 1) ∧
     ((((timedBatch 1 0 : TimedBatch ℕ).accept 5).flush.advance 300).deadline = none) ∧
     (((((timedBatch 1 0 : TimedBatch ℕ).accept 5).flush).advance 1500).flushes = 1)) :=
  ⟨⟨by norm_num, by norm_num [timedBatch, TimedBatch.accept]⟩,
   c7_timed_batch_single_flush 1 0 1500 300 1000 5
     ((timedBatch 1 0 : TimedBatch ℕ).accept 5)
     (by norm_num) (by norm_num [timedBatch, TimedBatch.accept])⟩

/-- C8: `start()` performs no immediate fetch and none occurs before
one full interval has elapsed; `stop()` followed by advancing time by
any amount performs no further fetch and forwards nothing; and calling
`start()` twice in a row leaves the source in exactly the state of
calling it once. -/
theorem c8_polling_start_stop {α : Type} (i t0 d d2 : ℚ)
    (fetch : ℚ → ℚ → Except Unit (List α)) (s : PollingSource α)
    (hd0 : 0 ≤ d) (hd : d < i * 1000) :
    (((pollingSource i t0 : PollingSource α).start.advance fetch d).fetchCalls = []) ∧
    (((pollingSource i t0 : PollingSource α).start.advance fetch d).accepted = []) ∧
    ((s.stop.advance fetch d2).fetchCalls = s.fetchCalls) ∧
    ((s.stop.advance fetch d2).accepted = s.accepted) ∧
    (s.start.start = s.start) := by
  have hnofire : ¬ (t0 + i * 1000 ≤ t0 + d) := by linarith
  refine ⟨?_, ?_, ?_, ?_, ?_⟩
  · simp [pollingSource, PollingSource.start, PollingSource.advance, fireCount, hnofire]
  · simp [pollingSource, PollingSource.start, PollingSource.advance, fireCount, hnofire]
  · simp [PollingSource.stop, PollingSource.advance]
  · simp [PollingSource.stop, PollingSource.advance]
  · obtain ⟨i2, n2, s2, nf2, fc2, ac2⟩ := s
    cases nf2 <;> rfl

/-- Witness for C8: interval 1 s, started at 0 ms, advanced by 500 ms
(less than one interval) and a stopped source advanced by 250 ms. -/
theorem c8_witness :
    (((0 : ℚ) ≤ 500) ∧ ((500 : ℚ) < 1 * 1000)) ∧
    ((((pollingSource 1 0 : PollingSource ℕ).start.advance noFetch 500).fetchCalls = []) ∧
     (((pollingSource 1 0 : PollingSource ℕ).start.advance noFetch 500).accepted = []) ∧
     (((pollingSource 1 0 : PollingSource ℕ).stop.advance noFetch 250).fetchCalls
        = (pollingSource 1 0 : PollingSource ℕ).fetchCalls) ∧
     (((pollingSource 1 0 : PollingSource ℕ).stop.advance noFetch 250).accepted
        = (pollingSource 1 0 : PollingSource ℕ).accepted) ∧
     ((pollingSource 1 0 : PollingSource ℕ).start.start
        = (pollingSource 1 0 : PollingSource ℕ).start)) :=
  ⟨⟨by norm_num, by norm_num⟩,
   c8_polling_start_stop 1 0 500 250 noFetch (pollingSource 1 0)
     (by norm_num) (by norm_num)⟩
